import Mathlib

/-!
Verification development for the confidential-transfer orchestration server
(crates/api). Rust functions are shallowly embedded as executable Lean
definitions: pubkeys are `Nat`, signatures and byte strings are `List Nat`,
fallible code returns `Except`, and every RPC interaction is an explicit
environment value. Theorems at the end of the file settle the frozen claims.
-/

/-! ## Basic byte-level types -/

/-- A 64-byte Ed25519 signature, modelled as a list of byte values. -/
abbrev Sig := List Nat

/-- `solana_signature::Signature::default()`: 64 zero bytes. -/
def default_signature : Sig := List.replicate 64 0

/-- A signing capability (`solana_signer::Signer`): a public key together with
a deterministic signing function over messages. -/
structure RSigner where
  pubkey : Nat
  sign_message : List Nat → Sig

/-! ## partial_sign.rs -/

/-- Embedding of `solana_message::VersionedMessage` restricted to what
`partial_sign` inspects: the header's `num_required_signatures`, the static
account keys, and the bytes produced by `message.serialize()` (treated as
opaque data, since `partial_sign` only passes them to the signer). -/
structure VersionedMessage where
  num_required_signatures : Nat
  static_account_keys : List Nat
  serialized : List Nat
deriving DecidableEq

/-- Embedding of `solana_transaction::versioned::VersionedTransaction`. -/
structure VersionedTransaction where
  message : VersionedMessage
  signatures : List Sig
deriving DecidableEq

/-- The error type of `partial_sign.rs` (`PartialSignError`). -/
inductive PartialSignError where
  | signerNotRequired (pubkey : Nat)
  | tooManySignatures (expected received : Nat)
deriving DecidableEq

/-- Rust's `Iterator::position(|p| p == &public_key)`: index of the first
occurrence of `target` in the list. -/
def position (target : Nat) : List Nat → Option Nat
  | [] => none
  | k :: rest => if k = target then some 0 else (position target rest).map (· + 1)

/-- The `Vec::resize` / `Vec::truncate` adjustments of the signatures vector
performed by `partial_sign` (`Ordering::Less` pads with default signatures,
`Ordering::Greater` truncates, `Ordering::Equal` leaves the vector alone;
`take` also covers the `Equal` case). -/
def adjust_signatures (k : Nat) (sigs : List Sig) : List Sig :=
  if sigs.length < k then sigs ++ List.replicate (k - sigs.length) default_signature
  else sigs.take k

/-- Embedding of `<VersionedTransaction as PartialSign>::partial_sign`
(src/crates/api/src/partial_sign.rs, lines 22-57). The Rust method mutates
the transaction and returns `Result<Signature, PartialSignError>`; here the
(possibly updated) transaction is returned alongside the result. Mirrors the
source order: find the signer's position among the first
`num_required_signatures` static keys, adjust the signatures vector length
(failing when excess non-default signatures exist), sign the serialized
message and write the signature at the found index. -/
def partial_sign (tx : VersionedTransaction) (signer : RSigner) :
    VersionedTransaction × Except PartialSignError Sig :=
  let required_signature_count := tx.message.num_required_signatures
  match position signer.pubkey
      (tx.message.static_account_keys.take required_signature_count) with
  | none => (tx, .error (.signerNotRequired signer.pubkey))
  | some idx =>
    if required_signature_count < tx.signatures.length ∧
        (tx.signatures.drop required_signature_count).any
          (fun s => s ≠ default_signature) then
      (tx, .error (.tooManySignatures required_signature_count tx.signatures.length))
    else
      let signature := signer.sign_message tx.message.serialized
      ({ tx with signatures :=
          (adjust_signatures required_signature_count tx.signatures).set idx signature },
        .ok signature)

/-! ### Helper lemmas about `position` and `partial_sign` -/

lemma position_eq_none_iff (target : Nat) (l : List Nat) :
    position target l = none ↔ target ∉ l := by
  induction l with
  | nil => simp [position]
  | cons k rest ih =>
    by_cases hk : k = target
    · simp [position, hk]
    · simp [position, hk, Option.map_eq_none', ih, Ne.symm hk]

lemma position_get (target : Nat) (l : List Nat) (i : Nat)
    (h : position target l = some i) : l.get? i = some target := by
  induction l generalizing i with
  | nil => simp [position] at h
  | cons k rest ih =>
    by_cases hk : k = target
    · simp [position, hk] at h
      simp [← h, hk]
    · simp [position, hk] at h
      obtain ⟨j, hj, hji⟩ := h
      subst hji
      simpa using ih j hj

lemma position_lt_length (target : Nat) (l : List Nat) (i : Nat)
    (h : position target l = some i) : i < l.length := by
  have := position_get target l i h
  exact List.get?_eq_some.mp this |>.1

lemma position_isSome_of_mem (target : Nat) (l : List Nat) (h : target ∈ l) :
    ∃ i, position target l = some i := by
  rcases hp : position target l with _ | i
  · exact absurd h ((position_eq_none_iff target l).mp hp)
  · exact ⟨i, rfl⟩

lemma adjust_signatures_length (k : Nat) (sigs : List Sig) :
    (adjust_signatures k sigs).length = k := by
  unfold adjust_signatures
  split <;> simp <;> omega

lemma adjust_signatures_of_length_eq (k : Nat) (sigs : List Sig)
    (h : sigs.length = k) : adjust_signatures k sigs = sigs := by
  unfold adjust_signatures
  rw [if_neg (by omega), ← h]
  exact List.take_length sigs

lemma partial_sign_not_required (tx : VersionedTransaction) (signer : RSigner)
    (h : position signer.pubkey
      (tx.message.static_account_keys.take tx.message.num_required_signatures) = none) :
    partial_sign tx signer = (tx, .error (.signerNotRequired signer.pubkey)) := by
  simp only [partial_sign, h]

lemma partial_sign_too_many (tx : VersionedTransaction) (signer : RSigner) (i : Nat)
    (h : position signer.pubkey
      (tx.message.static_account_keys.take tx.message.num_required_signatures) = some i)
    (hcond : tx.message.num_required_signatures < tx.signatures.length ∧
      (tx.signatures.drop tx.message.num_required_signatures).any
        (fun s => s ≠ default_signature)) :
    partial_sign tx signer =
      (tx, .error (.tooManySignatures tx.message.num_required_signatures
        tx.signatures.length)) := by
  simp only [partial_sign, h]
  rw [if_pos hcond]

lemma partial_sign_ok (tx : VersionedTransaction) (signer : RSigner) (i : Nat)
    (h : position signer.pubkey
      (tx.message.static_account_keys.take tx.message.num_required_signatures) = some i)
    (hcond : ¬ (tx.message.num_required_signatures < tx.signatures.length ∧
      (tx.signatures.drop tx.message.num_required_signatures).any
        (fun s => s ≠ default_signature))) :
    partial_sign tx signer =
      (VersionedTransaction.mk tx.message
        ((adjust_signatures tx.message.num_required_signatures tx.signatures).set i
          (signer.sign_message tx.message.serialized)),
        .ok (signer.sign_message tx.message.serialized)) := by
  simp only [partial_sign, h]
  rw [if_neg hcond]

lemma position_mem (target : Nat) (l : List Nat) (i : Nat)
    (h : position target l = some i) : target ∈ l :=
  List.get?_mem (position_get target l i h)

lemma any_nondefault_false (sigs : List Sig)
    (h : ∀ s ∈ sigs, s = default_signature) :
    ¬ (sigs.any (fun s => s ≠ default_signature) = true) := by
  simp only [List.any_eq_true, decide_eq_true_eq]
  rintro ⟨s, hs, hne⟩
  exact hne (h s hs)

lemma partial_sign_too_many_mk (msg : VersionedMessage) (sigs : List Sig)
    (s : RSigner) (i : Nat)
    (h : position s.pubkey
      (msg.static_account_keys.take msg.num_required_signatures) = some i)
    (hcond : msg.num_required_signatures < sigs.length ∧
      (sigs.drop msg.num_required_signatures).any (fun x => x ≠ default_signature)) :
    partial_sign ⟨msg, sigs⟩ s
      = (⟨msg, sigs⟩, .error (.tooManySignatures msg.num_required_signatures
          sigs.length)) :=
  partial_sign_too_many ⟨msg, sigs⟩ s i h hcond

lemma partial_sign_ok_mk (msg : VersionedMessage) (sigs : List Sig)
    (s : RSigner) (i : Nat)
    (h : position s.pubkey
      (msg.static_account_keys.take msg.num_required_signatures) = some i)
    (hcond : ¬ (msg.num_required_signatures < sigs.length ∧
      (sigs.drop msg.num_required_signatures).any (fun x => x ≠ default_signature))) :
    partial_sign ⟨msg, sigs⟩ s
      = (⟨msg, (adjust_signatures msg.num_required_signatures sigs).set i
          (s.sign_message msg.serialized)⟩, .ok (s.sign_message msg.serialized)) :=
  partial_sign_ok ⟨msg, sigs⟩ s i h hcond

/-! ### Claim theorems for the partial signer -/

/-- C5: for a versioned transaction whose message requires `k` signatures and
a signer whose pubkey first appears at position `i` among the first `k` static
account keys, provided any entries past index `k-1` are zeroed, `partial_sign`
extends the signatures vector to length `k` with zeroed signatures when it is
shorter, truncates it to `k` when it is longer, writes the signer's signature
over the serialized message at index `i`, and returns that signature. -/
theorem c5_partial_sign_writes_signature (tx : VersionedTransaction)
    (signer : RSigner) (i : Nat)
    (h : position signer.pubkey
      (tx.message.static_account_keys.take tx.message.num_required_signatures) = some i)
    (hextra : ∀ s ∈ tx.signatures.drop tx.message.num_required_signatures,
      s = default_signature) :
    (partial_sign tx signer).2 = .ok (signer.sign_message tx.message.serialized)
    ∧ (partial_sign tx signer).1.message = tx.message
    ∧ (partial_sign tx signer).1.signatures.length = tx.message.num_required_signatures
    ∧ (partial_sign tx signer).1.signatures[i]?
        = some (signer.sign_message tx.message.serialized)
    ∧ (tx.signatures.length < tx.message.num_required_signatures →
        (partial_sign tx signer).1.signatures
          = (tx.signatures ++ List.replicate
              (tx.message.num_required_signatures - tx.signatures.length)
              default_signature).set i (signer.sign_message tx.message.serialized))
    ∧ (tx.message.num_required_signatures ≤ tx.signatures.length →
        (partial_sign tx signer).1.signatures
          = (tx.signatures.take tx.message.num_required_signatures).set i
              (signer.sign_message tx.message.serialized)) := by
  have hcond : ¬ (tx.message.num_required_signatures < tx.signatures.length ∧
      (tx.signatures.drop tx.message.num_required_signatures).any
        (fun s => s ≠ default_signature)) := by
    rintro ⟨-, hany⟩
    exact any_nondefault_false _ hextra hany
  rw [partial_sign_ok tx signer i h hcond]
  have hik : i < tx.message.num_required_signatures := by
    have h1 := position_lt_length _ _ _ h
    rw [List.length_take] at h1
    omega
  have hlen := adjust_signatures_length tx.message.num_required_signatures tx.signatures
  refine ⟨rfl, rfl, by simp [hlen], ?_, ?_, ?_⟩
  · exact List.getElem?_set_eq_of_lt _ (by omega)
  · intro hlt
    simp [adjust_signatures, if_pos hlt]
  · intro hge
    simp [adjust_signatures, if_neg (by omega : ¬ tx.signatures.length <
      tx.message.num_required_signatures)]

/-- C5 witness: a concrete transaction requiring two signatures with an empty
signatures vector; the signer at position 0 gets its signature written. -/
theorem c5_witness :
    (partial_sign (VersionedTransaction.mk (VersionedMessage.mk 2 [10, 20] [9]) [])
        (RSigner.mk 10 (fun msg => 5 :: msg))).2 = .ok [5, 9] :=
  (c5_partial_sign_writes_signature
    (VersionedTransaction.mk (VersionedMessage.mk 2 [10, 20] [9]) [])
    (RSigner.mk 10 (fun msg => 5 :: msg)) 0 (by decide) (by decide)).1

/-- C6: `partial_sign` fails with `SignerNotRequired(pubkey)` exactly when the
signer's pubkey is not among the first `num_required_signatures` static keys;
it fails with `TooManySignatures{expected, received}` exactly when the signer
is required, the vector has more than the required number of entries, and some
entry past the required count is non-zero; and every failure leaves the
transaction unchanged. -/
theorem c6_partial_sign_error_characterization (tx : VersionedTransaction)
    (signer : RSigner) :
    (∀ p, (partial_sign tx signer).2 = .error (.signerNotRequired p) ↔
      (p = signer.pubkey ∧ signer.pubkey ∉
        tx.message.static_account_keys.take tx.message.num_required_signatures))
    ∧ (∀ e r, (partial_sign tx signer).2 = .error (.tooManySignatures e r) ↔
      (signer.pubkey ∈
          tx.message.static_account_keys.take tx.message.num_required_signatures
        ∧ e = tx.message.num_required_signatures
        ∧ r = tx.signatures.length
        ∧ tx.message.num_required_signatures < tx.signatures.length
        ∧ ∃ s ∈ tx.signatures.drop tx.message.num_required_signatures,
            s ≠ default_signature))
    ∧ (∀ err, (partial_sign tx signer).2 = .error err →
        (partial_sign tx signer).1 = tx) := by
  rcases hp : position signer.pubkey
      (tx.message.static_account_keys.take tx.message.num_required_signatures)
    with _ | i
  · rw [partial_sign_not_required tx signer hp]
    have hmem := (position_eq_none_iff _ _).mp hp
    refine ⟨?_, ?_, fun _ _ => rfl⟩
    · intro p
      simp only [Except.error.injEq, PartialSignError.signerNotRequired.injEq]
      constructor
      · intro hpe
        exact ⟨hpe.symm, hmem⟩
      · intro hpe
        exact hpe.1.symm
    · intro e r
      simp only [Except.error.injEq]
      constructor
      · intro hfalse
        cases hfalse
      · rintro ⟨hm, -⟩
        exact absurd hm hmem
  · have hmem := position_mem _ _ _ hp
    by_cases hcond : tx.message.num_required_signatures < tx.signatures.length ∧
        (tx.signatures.drop tx.message.num_required_signatures).any
          (fun s => s ≠ default_signature)
    · rw [partial_sign_too_many tx signer i hp hcond]
      refine ⟨?_, ?_, fun _ _ => rfl⟩
      · intro p
        simp only [Except.error.injEq]
        constructor
        · intro hfalse
          cases hfalse
        · rintro ⟨-, hnm⟩
          exact absurd hmem hnm
      · intro e r
        simp only [Except.error.injEq, PartialSignError.tooManySignatures.injEq]
        constructor
        · rintro ⟨he, hr⟩
          refine ⟨hmem, he.symm, hr.symm, hcond.1, ?_⟩
          have := hcond.2
          simpa only [List.any_eq_true, decide_eq_true_eq] using this
        · rintro ⟨-, he, hr, -, -⟩
          exact ⟨he.symm, hr.symm⟩
    · rw [partial_sign_ok tx signer i hp hcond]
      refine ⟨?_, ?_, ?_⟩
      · intro p
        simp only []
        constructor
        · intro hfalse
          cases hfalse
        · rintro ⟨-, hnm⟩
          exact absurd hmem hnm
      · intro e r
        simp only []
        constructor
        · intro hfalse
          cases hfalse
        · rintro ⟨-, -, -, hlt, s, hs, hne⟩
          exact absurd ⟨hlt, List.any_eq_true.mpr ⟨s, hs, by simpa using hne⟩⟩ hcond
      · intro err hfalse
        cases hfalse

/-- C6 witness: a signer that is not among the required keys is rejected with
`SignerNotRequired` and the transaction is unchanged. -/
theorem c6_witness :
    (partial_sign (VersionedTransaction.mk (VersionedMessage.mk 1 [10, 20] [9]) [])
        (RSigner.mk 99 (fun msg => 5 :: msg))).2
      = .error (.signerNotRequired 99) :=
  ((c6_partial_sign_error_characterization
      (VersionedTransaction.mk (VersionedMessage.mk 1 [10, 20] [9]) [])
      (RSigner.mk 99 (fun msg => 5 :: msg))).1 99).mpr ⟨rfl, by decide⟩

/-- C7: partial signing commutes. For a transaction that requires the signers
`x` and `y` (both pubkeys among the first `num_required_signatures` static
account keys, and distinct), signing with `y` then `x` produces the same
transaction as signing with `x` then `y`. -/
theorem c7_partial_sign_commutes (tx : VersionedTransaction) (x y : RSigner)
    (hx : x.pubkey ∈
      tx.message.static_account_keys.take tx.message.num_required_signatures)
    (hy : y.pubkey ∈
      tx.message.static_account_keys.take tx.message.num_required_signatures)
    (hxy : x.pubkey ≠ y.pubkey) :
    (partial_sign (partial_sign tx x).1 y).1
      = (partial_sign (partial_sign tx y).1 x).1 := by
  obtain ⟨msg, sigs⟩ := tx
  simp only [] at hx hy
  obtain ⟨ix, hix⟩ := position_isSome_of_mem _ _ hx
  obtain ⟨iy, hiy⟩ := position_isSome_of_mem _ _ hy
  have hne : ix ≠ iy := by
    intro hcontr
    subst hcontr
    have h1 := position_get _ _ _ hix
    have h2 := position_get _ _ _ hiy
    rw [h1, Option.some.injEq] at h2
    exact hxy h2
  by_cases hcond : msg.num_required_signatures < sigs.length ∧
      (sigs.drop msg.num_required_signatures).any (fun s => s ≠ default_signature)
  · have e1 := partial_sign_too_many_mk msg sigs x ix hix hcond
    have e2 := partial_sign_too_many_mk msg sigs y iy hiy hcond
    rw [e1, e2, e1]
  · have e1 := partial_sign_ok_mk msg sigs x ix hix hcond
    have e2 := partial_sign_ok_mk msg sigs y iy hiy hcond
    rw [e1, e2]
    have hlen := adjust_signatures_length msg.num_required_signatures sigs
    have hl1 : ((adjust_signatures msg.num_required_signatures sigs).set ix
        (x.sign_message msg.serialized)).length = msg.num_required_signatures := by
      simp [hlen]
    have hl2 : ((adjust_signatures msg.num_required_signatures sigs).set iy
        (y.sign_message msg.serialized)).length = msg.num_required_signatures := by
      simp [hlen]
    have hcond1 : ∀ s : List Sig, s.length = msg.num_required_signatures →
        ¬ (msg.num_required_signatures < s.length ∧
          (s.drop msg.num_required_signatures).any
            (fun sg => sg ≠ default_signature)) := by
      intro s hlength
      rintro ⟨hlt, -⟩
      omega
    rw [partial_sign_ok_mk msg _ y iy hiy (hcond1 _ hl1),
      partial_sign_ok_mk msg _ x ix hix (hcond1 _ hl2)]
    simp only [VersionedTransaction.mk.injEq, true_and]
    rw [adjust_signatures_of_length_eq _ _ hl1,
      adjust_signatures_of_length_eq _ _ hl2]
    exact List.set_comm _ _ _ hne

/-! ## confidential_keys.rs / signature_signer.rs / utils.rs: key derivation

The SDK key-derivation (`ElGamalKeypair::new_from_signer` and
`AeKey::new_from_signer` in solana-zk-sdk) signs a domain-tagged message
`tag ++ public_seed`, rejects the all-zero default signature, and feeds the
signature bytes into a fixed deterministic `from_seed` expansion. Keypairs are
represented here by those determining seed bytes. -/

/-- Byte values of the domain prefix `b"ElGamalSecretKey"` that the SDK
prepends to the public seed before signing. -/
def elgamal_secret_key_domain : List Nat :=
  [69, 108, 71, 97, 109, 97, 108, 83, 101, 99, 114, 101, 116, 75, 101, 121]

/-- Byte values of the domain prefix `b"AeKey"`. -/
def ae_key_domain : List Nat := [65, 101, 75, 101, 121]

/-- An ElGamal keypair, represented by the KDF seed bytes (the signature over
the tagged message) that deterministically produce it. -/
structure ElGamalKeypair where
  seed_bytes : List Nat
deriving DecidableEq

/-- An authenticated-encryption key, represented by its KDF seed bytes. -/
structure AeKey where
  seed_bytes : List Nat
deriving DecidableEq

/-- SDK `ElGamalKeypair::new_from_signer`: sign `b"ElGamalSecretKey" ++ seed`,
reject a default (all-zero) signature, derive the keypair from the signature
bytes. -/
def elgamal_keypair_new_from_signer (signer : RSigner) (public_seed : List Nat) :
    Except String ElGamalKeypair :=
  let signature := signer.sign_message (elgamal_secret_key_domain ++ public_seed)
  if signature = default_signature then .error "Rejecting default signatures"
  else .ok ⟨signature⟩

/-- SDK `AeKey::new_from_signer`: sign `b"AeKey" ++ seed`, reject a default
signature, derive the key from the signature bytes. -/
def ae_key_new_from_signer (signer : RSigner) (public_seed : List Nat) :
    Except String AeKey :=
  let signature := signer.sign_message (ae_key_domain ++ public_seed)
  if signature = default_signature then .error "Rejecting default signatures"
  else .ok ⟨signature⟩

deriving instance DecidableEq for Except

/-- The `ConfidentialKeys` bundle (signature_signer.rs lines 96-101). -/
structure ConfidentialKeys where
  elgamal_keypair : ElGamalKeypair
  ae_key : AeKey
deriving DecidableEq

/-- `ConfidentialKeys::from_signer` (signature_signer.rs lines 108-117): run
both SDK sub-derivations with the same signer and seed. -/
def confidential_keys_from_signer (signer : RSigner) (seed : List Nat) :
    Except String ConfidentialKeys :=
  match elgamal_keypair_new_from_signer signer seed with
  | .error e => .error ("Failed to create ElGamal keypair: " ++ e)
  | .ok elgamal_keypair =>
    match ae_key_new_from_signer signer seed with
    | .error e => .error ("Failed to create AE key: " ++ e)
    | .ok ae_key => .ok ⟨elgamal_keypair, ae_key⟩

/-- `SignatureSigner` (signature_signer.rs lines 46-94): wraps a pre-computed
signature as a signer whose `sign_message` ignores its message argument. -/
def signature_signer (pubkey : Nat) (signature : Sig) : RSigner :=
  ⟨pubkey, fun _message => signature⟩

/-- `SignatureKeyDerivation::derive_keys` (signature_signer.rs lines 189-202):
check the signature is 64 bytes, then derive through the constant-signature
signer (`ConfidentialKeys::from_signature_bytes`). -/
def derive_keys (wallet_pubkey : Nat) (signature_bytes : List Nat)
    (seed : List Nat) : Except String ConfidentialKeys :=
  if signature_bytes.length ≠ 64 then
    .error "Signature must be exactly 64 bytes"
  else
    confidential_keys_from_signer (signature_signer wallet_pubkey signature_bytes) seed

/-- `confidential_keys_for_mint` (utils.rs lines 53-69): the owner signs the
ATA address bytes, and the resulting signature is wrapped in a
`SignatureKeyDerivation` whose `derive_keys` runs on the same bytes. The ATA
address itself is an external PDA hash, so the function is parametrized by the
address bytes. -/
def confidential_keys_for_mint (owner : RSigner) (ata_bytes : List Nat) :
    Except String ConfidentialKeys :=
  derive_keys owner.pubkey (owner.sign_message ata_bytes) ata_bytes

/-- C2 counterexample: a signer whose (deterministic, injective) signing
function is `msg ++ 1-padding, truncated to 64 bytes`. Deriving through the
precomputed-signature adapter yields key material equal to the signature over
the bare seed, while the direct SDK path signs the domain-tagged message, so
the two derivations disagree at this concrete input. -/
theorem c2_counterexample_precomputed_keys_differ :
    confidential_keys_for_mint
        (RSigner.mk 7 (fun msg => (msg ++ List.replicate 64 1).take 64)) [2]
      ≠ confidential_keys_from_signer
        (RSigner.mk 7 (fun msg => (msg ++ List.replicate 64 1).take 64)) [2] := by
  decide

/-- C2 (amended): the precomputed-signature adapter is deterministic and uses
the client signature itself as the key material for both the ElGamal keypair
and the AE key; its output equals the direct SDK derivation on the in-process
signer if and only if that signer's signatures over the two domain-tagged
messages coincide with its signature over the bare seed (which fails for any
injective signing function, Ed25519 in practice). -/
theorem c2_precomputed_adapter_keys (owner : RSigner) (seed : List Nat)
    (hlen : (owner.sign_message seed).length = 64)
    (hnz : owner.sign_message seed ≠ default_signature) :
    confidential_keys_for_mint owner seed
      = .ok ⟨⟨owner.sign_message seed⟩, ⟨owner.sign_message seed⟩⟩
    ∧ (confidential_keys_for_mint owner seed
          = confidential_keys_from_signer owner seed
        ↔ owner.sign_message (elgamal_secret_key_domain ++ seed)
            = owner.sign_message seed
          ∧ owner.sign_message (ae_key_domain ++ seed) = owner.sign_message seed) := by
  have hmain : confidential_keys_for_mint owner seed
      = .ok ⟨⟨owner.sign_message seed⟩, ⟨owner.sign_message seed⟩⟩ := by
    unfold confidential_keys_for_mint derive_keys
    rw [if_neg (by omega)]
    unfold confidential_keys_from_signer elgamal_keypair_new_from_signer
      ae_key_new_from_signer signature_signer
    simp only []
    rw [if_neg hnz, if_neg hnz]
  refine ⟨hmain, ?_⟩
  rw [hmain]
  unfold confidential_keys_from_signer elgamal_keypair_new_from_signer
    ae_key_new_from_signer
  simp only []
  by_cases h1 : owner.sign_message (elgamal_secret_key_domain ++ seed)
      = default_signature
  · rw [if_pos h1]
    simp only []
    constructor
    · intro hfalse
      cases hfalse
    · rintro ⟨he, -⟩
      rw [h1] at he
      exact absurd he.symm hnz
  · rw [if_neg h1]
    by_cases h2 : owner.sign_message (ae_key_domain ++ seed) = default_signature
    · rw [if_pos h2]
      simp only []
      constructor
      · intro hfalse
        cases hfalse
      · rintro ⟨-, ha⟩
        rw [h2] at ha
        exact absurd ha.symm hnz
    · rw [if_neg h2]
      simp only [Except.ok.injEq, ConfidentialKeys.mk.injEq,
        ElGamalKeypair.mk.injEq, AeKey.mk.injEq]
      constructor
      · rintro ⟨he, ha⟩
        exact ⟨he.symm, ha.symm⟩
      · rintro ⟨he, ha⟩
        exact ⟨he.symm, ha.symm⟩

/-- C2 witness for the amended theorem: the concrete injective signer derives
keys whose material is exactly its signature over the bare seed. -/
theorem c2_witness :
    confidential_keys_for_mint
        (RSigner.mk 7 (fun msg => (msg ++ List.replicate 64 1).take 64)) [2]
      = .ok ⟨⟨([2] ++ List.replicate 64 1).take 64⟩,
          ⟨([2] ++ List.replicate 64 1).take 64⟩⟩ :=
  (c2_precomputed_adapter_keys
    (RSigner.mk 7 (fun msg => (msg ++ List.replicate 64 1).take 64)) [2]
    (by decide) (by decide)).1

/-- C7 witness: two concrete required signers of a two-signature transaction
commute. -/
theorem c7_witness :
    (partial_sign (partial_sign
        (VersionedTransaction.mk (VersionedMessage.mk 2 [10, 20] [9]) [])
        (RSigner.mk 10 (fun msg => 5 :: msg))).1
        (RSigner.mk 20 (fun msg => 7 :: msg))).1
      = (partial_sign (partial_sign
        (VersionedTransaction.mk (VersionedMessage.mk 2 [10, 20] [9]) [])
        (RSigner.mk 20 (fun msg => 7 :: msg))).1
        (RSigner.mk 10 (fun msg => 5 :: msg))).1 :=
  c7_partial_sign_commutes
    (VersionedTransaction.mk (VersionedMessage.mk 2 [10, 20] [9]) [])
    (RSigner.mk 10 (fun msg => 5 :: msg))
    (RSigner.mk 20 (fun msg => 7 :: msg))
    (by decide) (by decide) (by decide)

/-! ## transfer.rs: balance reconciliation and the five-phase orchestration

The RPC world is an explicit environment: each network interaction of
`ensure_confidential_balance` and `invoke_confidential_transfer` is one
environment field holding its outcome. -/

/-- Transactions submitted by `ensure_confidential_balance`. -/
inductive EnsureAction where
  | deposit (amount : Nat)
  | apply_pending
deriving DecidableEq

/-- Errors surfaced by `ensure_confidential_balance`: propagated RPC failures,
and the insufficient-balance error carrying the re-read available and pending
balances and the required amount (transfer.rs lines 701-706). -/
inductive EnsureError where
  | rpc (msg : String)
  | insufficient (available pending required : Nat)
deriving DecidableEq

/-- Outcomes of the RPC interactions `ensure_confidential_balance` performs,
in program order: the first `get_confidential_balances` read (pending,
available), the deposit submission, the apply-pending submission, and the
re-read. -/
structure EnsureEnv where
  balances1 : Except String (Nat × Nat)
  deposit_submit : Except String Nat
  apply_submit : Except String Nat
  balances2 : Except String (Nat × Nat)
deriving DecidableEq

/-- The apply-and-recheck tail of `ensure_confidential_balance` (transfer.rs
lines 666-707): submit one apply-pending-balance transaction, re-read the
balances, succeed when the available balance covers `amount` and fail with the
insufficient-balance error otherwise. -/
def apply_and_recheck (env : EnsureEnv) (amount : Nat)
    (acts : List EnsureAction) : List EnsureAction × Except EnsureError Unit :=
  match env.apply_submit with
  | .error e => (acts ++ [.apply_pending], .error (.rpc e))
  | .ok _sig =>
    match env.balances2 with
    | .error e => (acts ++ [.apply_pending], .error (.rpc e))
    | .ok (pending_after, available_after) =>
      if available_after ≥ amount then (acts ++ [.apply_pending], .ok ())
      else (acts ++ [.apply_pending],
        .error (.insufficient available_after pending_after amount))

/-- Embedding of `ensure_confidential_balance` (transfer.rs lines 616-707).
Read (pending, available); return immediately when available covers `amount`;
when the pending balance is zero submit a deposit of
`amount.saturating_sub(available)` (returning early if that is zero); then
apply the pending balance, re-read, and check. The returned list records the
transactions submitted. -/
def ensure_confidential_balance (env : EnsureEnv) (amount : Nat) :
    List EnsureAction × Except EnsureError Unit :=
  match env.balances1 with
  | .error e => ([], .error (.rpc e))
  | .ok (pending_balance, available_balance) =>
    if available_balance ≥ amount then ([], .ok ())
    else if pending_balance = 0 then
      let deposit_amount := amount - available_balance
      if deposit_amount = 0 then ([], .ok ())
      else
        match env.deposit_submit with
        | .error e => ([.deposit deposit_amount], .error (.rpc e))
        | .ok _sig => apply_and_recheck env amount [.deposit deposit_amount]
    else apply_and_recheck env amount []

/-- The five transaction phases of a confidential transfer. -/
inductive Phase where
  | allocate
  | verify_range
  | verify_remaining
  | transfer
  | close
deriving DecidableEq

/-- Errors surfaced by `invoke_confidential_transfer`: a propagated
`ensure_confidential_balance` failure, the wrapped proof-preparation failure,
a propagated RPC submission failure, and the wrapped transfer failure. -/
inductive InvokeError where
  | ensure (e : EnsureError)
  | prepare_failed (msg : String)
  | rpc (msg : String)
  | transfer_failed (msg : String)
deriving DecidableEq

/-- Outcomes of the steps of `invoke_confidential_transfer`, in program order:
balance reconciliation (its own environment), proof generation and
transaction preparation, then one submission outcome per phase (the close
field folds the blockhash fetch and the submission of the close
transaction). -/
structure InvokeEnv where
  ensure_env : EnsureEnv
  prepare : Except String Unit
  send_allocate : Except String Nat
  send_range : Except String Nat
  send_remaining : Except String Nat
  send_transfer : Except String Nat
  send_close : Except String Nat
deriving DecidableEq

/-- Embedding of `invoke_confidential_transfer` (transfer.rs lines 82-191):
ensure the confidential balance, prepare the proof transactions, submit the
three proof transactions sequentially, execute the transfer, then build and
submit the close transaction; every failure propagates immediately through
`?`. The returned list records which phase submissions were attempted. -/
def invoke_confidential_transfer (env : InvokeEnv) (amount : Nat) :
    List Phase × Except InvokeError (List Nat) :=
  match (ensure_confidential_balance env.ensure_env amount).2 with
  | .error e => ([], .error (.ensure e))
  | .ok _ =>
  match env.prepare with
  | .error e => ([], .error (.prepare_failed e))
  | .ok _ =>
  match env.send_allocate with
  | .error e => ([.allocate], .error (.rpc e))
  | .ok signature_1 =>
  match env.send_range with
  | .error e => ([.allocate, .verify_range], .error (.rpc e))
  | .ok signature_2 =>
  match env.send_remaining with
  | .error e => ([.allocate, .verify_range, .verify_remaining], .error (.rpc e))
  | .ok signature_3 =>
  match env.send_transfer with
  | .error e => ([.allocate, .verify_range, .verify_remaining, .transfer],
      .error (.transfer_failed e))
  | .ok transfer_signature =>
  match env.send_close with
  | .error e => ([.allocate, .verify_range, .verify_remaining, .transfer, .close],
      .error (.rpc e))
  | .ok signature_4 =>
    ([.allocate, .verify_range, .verify_remaining, .transfer, .close],
      .ok [signature_1, signature_2, signature_3, transfer_signature, signature_4])

/-- Boolean success test for an `Except` outcome. -/
def except_ok {ε α : Type} : Except ε α → Bool
  | .ok _ => true
  | .error _ => false

lemma apply_and_recheck_actions (env : EnsureEnv) (amount : Nat)
    (acts : List EnsureAction) :
    (apply_and_recheck env amount acts).1 = acts ++ [.apply_pending] := by
  unfold apply_and_recheck
  cases env.apply_submit with
  | error e => rfl
  | ok s =>
    cases env.balances2 with
    | error e => rfl
    | ok pa =>
      obtain ⟨p, a⟩ := pa
      by_cases h : a ≥ amount <;> simp [h]

/-- C3: `ensure_confidential_balance` follows the specified state machine.
With all RPC interactions succeeding: it returns success immediately when the
first available balance covers `amount`; otherwise it submits a deposit of
exactly `amount - available` precisely when the pending balance is zero,
submits one apply-pending-balance, and succeeds if and only if the re-read
available balance covers `amount`, failing otherwise with the
insufficient-balance error reporting the re-read available, pending and
required amounts. -/
theorem c3_ensure_confidential_balance_state_machine (env : EnsureEnv)
    (amount p1 a1 p2 a2 ds as : Nat)
    (h1 : env.balances1 = .ok (p1, a1))
    (hd : env.deposit_submit = .ok ds)
    (ha : env.apply_submit = .ok as)
    (h2 : env.balances2 = .ok (p2, a2)) :
    (a1 ≥ amount → ensure_confidential_balance env amount = ([], .ok ()))
    ∧ (a1 < amount →
        (ensure_confidential_balance env amount).1
          = (if p1 = 0 then [EnsureAction.deposit (amount - a1)] else [])
            ++ [EnsureAction.apply_pending]
        ∧ ((ensure_confidential_balance env amount).2 = .ok () ↔ a2 ≥ amount)
        ∧ (a2 < amount → (ensure_confidential_balance env amount).2
            = .error (.insufficient a2 p2 amount))) := by
  constructor
  · intro hge
    simp [ensure_confidential_balance, h1, hge]
  · intro hlt
    have hnge : ¬ (a1 ≥ amount) := by omega
    have hne : ¬ (amount - a1 = 0) := by omega
    by_cases hp : p1 = 0
    · by_cases ha2 : a2 ≥ amount
      · constructor
        · simp [ensure_confidential_balance, h1, hnge, hp, hne, hd,
            apply_and_recheck, ha, h2, ha2]
        · constructor
          · simp [ensure_confidential_balance, h1, hnge, hp, hne, hd,
              apply_and_recheck, ha, h2, ha2]
          · intro hlt2
            omega
      · refine ⟨?_, ?_, ?_⟩ <;>
          simp [ensure_confidential_balance, h1, hnge, hp, hne, hd,
            apply_and_recheck, ha, h2, ha2]
    · by_cases ha2 : a2 ≥ amount
      · refine ⟨?_, ?_, ?_⟩
        · simp [ensure_confidential_balance, h1, hnge, hp,
            apply_and_recheck, ha, h2, ha2]
        · simp [ensure_confidential_balance, h1, hnge, hp,
            apply_and_recheck, ha, h2, ha2]
        · intro hlt2
          omega
      · refine ⟨?_, ?_, ?_⟩ <;>
          simp [ensure_confidential_balance, h1, hnge, hp,
            apply_and_recheck, ha, h2, ha2]

/-- C3 witness: available 10 is short of the required 25, pending is zero, so
a deposit of 15 and one apply are submitted; the re-read available balance 30
covers the requirement and the call succeeds. -/
theorem c3_witness :
    (ensure_confidential_balance
        (EnsureEnv.mk (.ok (0, 10)) (.ok 1) (.ok 2) (.ok (0, 30))) 25).1
      = (if (0 : Nat) = 0 then [EnsureAction.deposit (25 - 10)] else [])
        ++ [EnsureAction.apply_pending] :=
  ((c3_ensure_confidential_balance_state_machine
      (EnsureEnv.mk (.ok (0, 10)) (.ok 1) (.ok 2) (.ok (0, 30)))
      25 0 10 0 30 1 2 rfl rfl rfl rfl).2 (by omega)).1

/-- C4: every deposit submitted by `ensure_confidential_balance` is strictly
positive; under the branch conditions (available < amount and pending = 0) the
saturating difference `amount - available` is nonzero, so the zero-deposit
early return is unreachable. -/
theorem c4_deposit_amount_positive (env : EnsureEnv) (amount : Nat) :
    ∀ d, EnsureAction.deposit d ∈ (ensure_confidential_balance env amount).1 →
      0 < d := by
  intro d hd
  unfold ensure_confidential_balance at hd
  cases hb : env.balances1 with
  | error e =>
    rw [hb] at hd
    simp at hd
  | ok pa =>
    obtain ⟨p1, a1⟩ := pa
    rw [hb] at hd
    by_cases hge : a1 ≥ amount
    · simp [hge] at hd
    · have hnge : ¬ (a1 ≥ amount) := hge
      by_cases hp : p1 = 0
      · have hne : ¬ (amount - a1 = 0) := by omega
        simp only [if_neg hnge, if_pos hp, if_neg hne] at hd
        cases hdep : env.deposit_submit with
        | error e =>
          rw [hdep] at hd
          simp at hd
          omega
        | ok s =>
          rw [hdep] at hd
          rw [apply_and_recheck_actions] at hd
          simp at hd
          omega
      · simp only [if_neg hnge, if_neg hp] at hd
        rw [apply_and_recheck_actions] at hd
        simp at hd

/-- C4 witness: with available 10, pending 0 and a required amount of 25 the
submitted deposit of 15 is strictly positive. -/
theorem c4_witness : 0 < 15 :=
  c4_deposit_amount_positive
    (EnsureEnv.mk (.ok (0, 10)) (.ok 1) (.ok 2) (.ok (0, 30))) 25 15
    (by decide)

/-- C1 counterexample: a run in which Phase A (allocate) succeeds and Phase B
(range-proof verification) fails. The orchestrator returns the RPC error
immediately: the close phase is never attempted, contradicting the claim that
Phase E is attempted on any Phase B-D failure. -/
theorem c1_counterexample_no_close_on_phase_b_failure :
    (invoke_confidential_transfer
        (InvokeEnv.mk (EnsureEnv.mk (.ok (0, 100)) (.ok 0) (.ok 0) (.ok (0, 100)))
          (.ok ()) (.ok 11) (.error "range proof verification failed")
          (.ok 13) (.ok 14) (.ok 15)) 5).2
      = .error (.rpc "range proof verification failed")
    ∧ Phase.close ∉ (invoke_confidential_transfer
        (InvokeEnv.mk (EnsureEnv.mk (.ok (0, 100)) (.ok 0) (.ok 0) (.ok (0, 100)))
          (.ok ()) (.ok 11) (.error "range proof verification failed")
          (.ok 13) (.ok 14) (.ok 15)) 5).1 := by
  decide

/-- C1 (amended): `invoke_confidential_transfer` submits the close-context-
state transaction (Phase E) exactly when balance reconciliation, proof
preparation, and all of Phases A-D succeeded; on any earlier failure,
including any Phase B-D failure, the error propagates immediately and Phase E
is not attempted. -/
theorem c1_close_submitted_iff_phases_succeed (env : InvokeEnv) (amount : Nat) :
    Phase.close ∈ (invoke_confidential_transfer env amount).1
      ↔ (except_ok (ensure_confidential_balance env.ensure_env amount).2
          && except_ok env.prepare && except_ok env.send_allocate
          && except_ok env.send_range && except_ok env.send_remaining
          && except_ok env.send_transfer) = true := by
  rcases h0 : (ensure_confidential_balance env.ensure_env amount).2 with e0 | u0 <;>
    rcases h1 : env.prepare with e1 | u1 <;>
    rcases h2 : env.send_allocate with e2 | s1 <;>
    rcases h3 : env.send_range with e3 | s2 <;>
    rcases h4 : env.send_remaining with e4 | s3 <;>
    rcases h5 : env.send_transfer with e5 | st <;>
    rcases h6 : env.send_close with e6 | s4 <;>
    simp [invoke_confidential_transfer, except_ok, h0, h1, h2, h3, h4, h5, h6]

/-! ## tokens.rs: associated-token-account setup -/

/-- The Token-2022 program id, as an opaque pubkey value. -/
def token_2022_program_id : Nat := 2022

/-- The fields of an on-chain ATA that `setup_token_account_with_keys`
inspects: the owning program of the account, the unpacked token account's
base owner and mint, and whether the `ConfidentialTransferAccount` TLV
extension is present. -/
structure AtaAccountState where
  program_owner : Nat
  token_owner : Nat
  token_mint : Nat
  has_confidential_transfer_extension : Bool
deriving DecidableEq

/-- A deterministic model of `AeKey::encrypt`: the ciphertext is determined by
the key material and the plaintext amount. -/
structure AeCiphertext where
  key_bytes : List Nat
  amount : Nat
deriving DecidableEq

/-- `confidential_keys.ae_key.encrypt(amount)`. -/
def ae_encrypt (key : AeKey) (amount : Nat) : AeCiphertext :=
  ⟨key.seed_bytes, amount⟩

/-- The instructions assembled by `setup_token_account_with_keys`, with the
fields the claim is about. `configure_account` carries the initial
decryptable balance, the maximum pending-balance credit counter, and the
relative proof-instruction offset of its `ProofLocation::InstructionOffset`;
`verify_pubkey_validity` is the adjacent proof instruction carrying the proof
data generated from the ElGamal keypair. -/
inductive TokenInstruction where
  | create_associated_token_account_idempotent
      (funding owner mint token_program : Nat)
  | reallocate (token_account payer owner : Nat)
  | configure_account (token_account mint : Nat)
      (decryptable_balance : AeCiphertext)
      (maximum_pending_balance_credit_counter : Nat)
      (owner : Nat) (proof_instruction_offset : Int)
  | verify_pubkey_validity (proof_elgamal_seed : List Nat)
deriving DecidableEq

/-- Embedding of `ata_has_confidential_transfer_extension` (tokens.rs lines
86-118): with no account the extension is required; an existing account must
be owned by the Token-2022 program and match the expected owner and mint, and
requires the extension exactly when its TLV data lacks it. -/
def ata_has_confidential_transfer_extension
    (maybe_ata_account : Option AtaAccountState) (ata_authority mint : Nat) :
    Except String Bool :=
  match maybe_ata_account with
  | none => .ok true
  | some ata_account =>
    if ata_account.program_owner ≠ token_2022_program_id then
      .error "Associated token account is not owned by Token-2022 program"
    else if ata_account.token_owner ≠ ata_authority then
      .error "Associated token account owner does not match authority"
    else if ata_account.token_mint ≠ mint then
      .error "Associated token account mint does not match"
    else .ok (! ata_account.has_confidential_transfer_extension)

/-- SPL `configure_account` with
`ProofLocation::InstructionOffset(offset, proof_data)`: returns the
configure-account instruction followed by the adjacent
`VerifyPubkeyValidity` proof instruction. -/
def configure_account_ixs (token_account mint : Nat)
    (decryptable_balance : AeCiphertext)
    (maximum_pending_balance_credit_counter : Nat) (owner : Nat)
    (proof_instruction_offset : Int) (proof_elgamal_seed : List Nat) :
    List TokenInstruction :=
  [.configure_account token_account mint decryptable_balance
      maximum_pending_balance_credit_counter owner proof_instruction_offset,
    .verify_pubkey_validity proof_elgamal_seed]

/-- Embedding of `setup_token_account_with_keys` (tokens.rs lines 137-215).
`ata` and `maybe_ata_account` are the result of `get_maybe_ata`; the create
instruction is emitted when no account exists, and the reallocate plus
configure-account (with adjacent pubkey-validity proof at instruction offset
1, an AE encryption of zero, and a maximum pending-balance credit counter of
65536) are emitted when the confidential-transfer extension is required. -/
def setup_token_account_with_keys (fee_payer ata_authority mint ata : Nat)
    (maybe_ata_account : Option AtaAccountState)
    (confidential_keys : ConfidentialKeys) :
    Except String (List TokenInstruction) :=
  let instructions :=
    if maybe_ata_account.isNone then
      [TokenInstruction.create_associated_token_account_idempotent
        fee_payer ata_authority mint token_2022_program_id]
    else []
  match ata_has_confidential_transfer_extension maybe_ata_account
      ata_authority mint with
  | .error e =>
    .error ("Failed to check if ATA has confidential transfer extension: " ++ e)
  | .ok requires_confidential_extension =>
    if requires_confidential_extension then
      let maximum_pending_balance_credit_counter := 65536
      let decryptable_balance := ae_encrypt confidential_keys.ae_key 0
      let proof_elgamal_seed := confidential_keys.elgamal_keypair.seed_bytes
      .ok (instructions
        ++ [TokenInstruction.reallocate ata fee_payer ata_authority]
        ++ configure_account_ixs ata mint decryptable_balance
            maximum_pending_balance_credit_counter ata_authority 1
            proof_elgamal_seed)
    else .ok instructions

/-- C8: `setup_token_account_with_keys` emits the create-idempotent ATA
instruction exactly when the ATA does not exist; it emits the reallocate and
configure-account instructions exactly when the `ConfidentialTransferAccount`
extension is absent (account missing, or present without the extension); and
the configure-account instruction carries an AE encryption of zero, a maximum
pending-balance credit counter of 65536, and proof-instruction offset 1, with
the pubkey-validity proof as the immediately following instruction rather than
a context account. -/
theorem c8_setup_token_account (fee_payer ata_authority mint ata : Nat)
    (maybe_ata_account : Option AtaAccountState) (keys : ConfidentialKeys)
    (ixs : List TokenInstruction)
    (h : setup_token_account_with_keys fee_payer ata_authority mint ata
      maybe_ata_account keys = .ok ixs) :
    ((TokenInstruction.create_associated_token_account_idempotent fee_payer
        ata_authority mint token_2022_program_id ∈ ixs)
      ↔ maybe_ata_account = none)
    ∧ ((TokenInstruction.reallocate ata fee_payer ata_authority ∈ ixs)
      ↔ (maybe_ata_account = none ∨ ∃ a, maybe_ata_account = some a ∧
          a.has_confidential_transfer_extension = false))
    ∧ ((maybe_ata_account = none ∨ ∃ a, maybe_ata_account = some a ∧
          a.has_confidential_transfer_extension = false) →
        ∃ i, ixs.get? i = some (TokenInstruction.configure_account ata mint
            (ae_encrypt keys.ae_key 0) 65536 ata_authority 1)
          ∧ ixs.get? (i + 1) = some (TokenInstruction.verify_pubkey_validity
              keys.elgamal_keypair.seed_bytes))
    ∧ (¬ (maybe_ata_account = none ∨ ∃ a, maybe_ata_account = some a ∧
          a.has_confidential_transfer_extension = false) → ixs = []) := by
  cases maybe_ata_account with
  | none =>
    simp only [setup_token_account_with_keys,
      ata_has_confidential_transfer_extension, configure_account_ixs,
      Option.isNone_none, if_true, if_pos, Except.ok.injEq, List.append_assoc,
      List.cons_append, List.nil_append] at h
    subst h
    refine ⟨by simp, by simp, fun _ => ⟨2, rfl, rfl⟩, fun hn => absurd (.inl rfl) hn⟩
  | some a =>
    by_cases hpo : a.program_owner ≠ token_2022_program_id
    · exfalso
      simp [setup_token_account_with_keys,
        ata_has_confidential_transfer_extension, hpo] at h
    · by_cases hto : a.token_owner ≠ ata_authority
      · exfalso
        simp [setup_token_account_with_keys,
          ata_has_confidential_transfer_extension, hpo, hto] at h
      · by_cases hmi : a.token_mint ≠ mint
        · exfalso
          simp [setup_token_account_with_keys,
            ata_has_confidential_transfer_extension, hpo, hto, hmi] at h
        · cases hext : a.has_confidential_transfer_extension with
          | true =>
            have hixs : ixs = [] := by
              simp [setup_token_account_with_keys,
                ata_has_confidential_transfer_extension, hpo, hto, hmi, hext] at h
              exact h
            subst hixs
            refine ⟨by simp, ?_, ?_, fun _ => rfl⟩
            · constructor
              · intro hfalse
                simp at hfalse
              · rintro (hnone | ⟨a', ha', hext'⟩)
                · cases hnone
                · rw [Option.some.injEq] at ha'
                  subst ha'
                  rw [hext] at hext'
                  cases hext'
            · rintro (hnone | ⟨a', ha', hext'⟩)
              · cases hnone
              · rw [Option.some.injEq] at ha'
                subst ha'
                rw [hext] at hext'
                cases hext'
          | false =>
            have hixs : ixs = [TokenInstruction.reallocate ata fee_payer
                ata_authority,
              TokenInstruction.configure_account ata mint
                (ae_encrypt keys.ae_key 0) 65536 ata_authority 1,
              TokenInstruction.verify_pubkey_validity
                keys.elgamal_keypair.seed_bytes] := by
              simp [setup_token_account_with_keys, configure_account_ixs,
                ata_has_confidential_transfer_extension, hpo, hto, hmi, hext] at h
              exact h.symm
            subst hixs
            refine ⟨by simp, ?_, fun _ => ⟨1, rfl, rfl⟩,
              fun hn => absurd (.inr ⟨a, rfl, hext⟩) hn⟩
            constructor
            · intro _
              exact .inr ⟨a, rfl, hext⟩
            · intro _
              simp

/-- C8 witness: with no existing ATA, the create-idempotent instruction is
emitted, and the configure-account instruction with its adjacent proof
follows the reallocate instruction. -/
theorem c8_witness :
    TokenInstruction.create_associated_token_account_idempotent 1 2 5
        token_2022_program_id
      ∈ [TokenInstruction.create_associated_token_account_idempotent 1 2 5
          token_2022_program_id,
        TokenInstruction.reallocate 9 1 2,
        TokenInstruction.configure_account 9 5 (ae_encrypt ⟨[4]⟩ 0) 65536 2 1,
        TokenInstruction.verify_pubkey_validity [3]] :=
  (c8_setup_token_account 1 2 5 9 none ⟨⟨[3]⟩, ⟨[4]⟩⟩ _ rfl).1.mpr rfl

/-! ## create.rs: mint creation -/

/-- The instructions assembled by `create_mint`, with the fields the claim is
about. -/
inductive MintInstruction where
  | create_account (from_pubkey to_pubkey lamports space owner : Nat)
  | initialize_confidential_transfer_mint (mint : Nat) (authority : Nat)
      (auto_approve_new_accounts : Bool) (auditor_elgamal_pubkey : List Nat)
  | initialize_metadata_pointer (mint authority metadata_address : Nat)
  | initialize_mint (mint mint_authority : Nat) (freeze_authority : Option Nat)
      (decimals : Nat)
  | system_transfer (from_pubkey to_pubkey lamports : Nat)
  | initialize_metadata (metadata_address update_authority mint mint_authority : Nat)
      (name symbol uri : String)
deriving DecidableEq

/-- Embedding of `create_mint` (create.rs lines 17-208). External
size and rent computations are parameters: `base_space` models
`ExtensionType::try_calculate_account_len` over the two fixed extensions,
`metadata_extension_space` models `TokenMetadata::tlv_size_of`, and
`get_minimum_balance_for_rent_exemption` is the RPC rent oracle. The usize
`checked_add` guard is kept; Nat subtraction is Rust's `saturating_sub`.
Instruction order mirrors the source: create_account, confidential-transfer-
mint init, metadata-pointer init, initialize_mint, the rent top-up transfer
when positive, initialize-metadata. -/
def create_mint (get_minimum_balance_for_rent_exemption : Nat → Nat)
    (base_space metadata_extension_space : Nat)
    (fee_payer absolute_authority : Nat) (auditor_elgamal_pubkey : List Nat)
    (mint : Nat) (decimals : Option Nat) (name symbol : String)
    (metadata_uri : Option String) : Except String (List MintInstruction) :=
  let decimals := decimals.getD 9
  let metadata_uri := metadata_uri.getD ""
  if base_space + metadata_extension_space ≥ 2 ^ 64 then
    .error "Mint space calculation overflowed"
  else
    let final_space := base_space + metadata_extension_space
    let space := base_space
    let rent := get_minimum_balance_for_rent_exemption space
    let final_rent := get_minimum_balance_for_rent_exemption final_space
    let additional_rent := final_rent - rent
    let instructions := [
      MintInstruction.create_account fee_payer mint rent space
        token_2022_program_id,
      MintInstruction.initialize_confidential_transfer_mint mint
        absolute_authority true auditor_elgamal_pubkey,
      MintInstruction.initialize_metadata_pointer mint absolute_authority mint,
      MintInstruction.initialize_mint mint absolute_authority
        (some absolute_authority) decimals]
    let instructions := instructions ++
      (if additional_rent > 0 then
        [MintInstruction.system_transfer fee_payer mint additional_rent]
      else [])
    .ok (instructions ++ [MintInstruction.initialize_metadata mint
      absolute_authority mint absolute_authority name symbol metadata_uri])

/-- C9: `create_mint` funds the create_account instruction with the rent-
exempt minimum for the base space only, adds a secondary system transfer of
exactly `rent(base + metadata_tlv) - rent(base)` lamports if and only if that
difference is positive, and emits its instructions in the order:
create_account, confidential-transfer-mint init, metadata-pointer init,
initialize_mint, optional rent top-up, initialize-metadata. -/
theorem c9_create_mint_rent_and_order
    (rent_oracle : Nat → Nat) (base_space metadata_extension_space : Nat)
    (fee_payer absolute_authority : Nat) (auditor_elgamal_pubkey : List Nat)
    (mint : Nat) (decimals : Option Nat) (name symbol : String)
    (metadata_uri : Option String)
    (hspace : base_space + metadata_extension_space < 2 ^ 64) :
    create_mint rent_oracle base_space metadata_extension_space fee_payer
        absolute_authority auditor_elgamal_pubkey mint decimals name symbol
        metadata_uri
      = .ok ([MintInstruction.create_account fee_payer mint
            (rent_oracle base_space) base_space token_2022_program_id,
          MintInstruction.initialize_confidential_transfer_mint mint
            absolute_authority true auditor_elgamal_pubkey,
          MintInstruction.initialize_metadata_pointer mint absolute_authority
            mint,
          MintInstruction.initialize_mint mint absolute_authority
            (some absolute_authority) (decimals.getD 9)]
        ++ (if rent_oracle base_space
              < rent_oracle (base_space + metadata_extension_space) then
            [MintInstruction.system_transfer fee_payer mint
              (rent_oracle (base_space + metadata_extension_space)
                - rent_oracle base_space)]
          else [])
        ++ [MintInstruction.initialize_metadata mint absolute_authority mint
            absolute_authority name symbol (metadata_uri.getD "")]) := by
  unfold create_mint
  rw [if_neg (by omega)]
  simp only []
  by_cases htop : rent_oracle base_space
      < rent_oracle (base_space + metadata_extension_space)
  · rw [if_pos (show rent_oracle (base_space + metadata_extension_space)
        - rent_oracle base_space > 0 from by omega), if_pos htop]
  · rw [if_neg (show ¬ (rent_oracle (base_space + metadata_extension_space)
        - rent_oracle base_space > 0) from by omega), if_neg htop]

/-- C9 witness: with base space 100, metadata space 20 and the identity rent
oracle the top-up transfer carries exactly 20 lamports between
`initialize_mint` and `initialize_metadata`. -/
theorem c9_witness :
    create_mint (fun space => space) 100 20 1 2 [3] 4 none "n" "s" none
      = .ok ([MintInstruction.create_account 1 4 100 100 token_2022_program_id,
          MintInstruction.initialize_confidential_transfer_mint 4 2 true [3],
          MintInstruction.initialize_metadata_pointer 4 2 4,
          MintInstruction.initialize_mint 4 2 (some 2) 9]
        ++ (if (100 : Nat) < 120 then [MintInstruction.system_transfer 1 4 20]
          else [])
        ++ [MintInstruction.initialize_metadata 4 2 4 2 "n" "s" ""]) :=
  c9_create_mint_rent_and_order (fun space => space) 100 20 1 2 [3] 4 none
    "n" "s" none (by norm_num)

/-! ## db.rs / handlers: wallet ownership lookup and the balance endpoint -/

/-- A row of the `wallets` table joined with its owning user: the wallet
pubkey and the user's external id string (`"tg:" ++ telegram user id`). -/
structure WalletRow where
  pubkey : Nat
  user_id : String
deriving DecidableEq

/-- Embedding of `get_user_wallet_by_pubkey` (db.rs lines 321-350). The SQL
query selects the wallet whose pubkey and owning user both match
(`fetch_optional`); the code then returns an anyhow error when that result is
empty — it never returns `Ok(None)`, despite its doc comment saying it
returns `None` when the wallet does not exist or belongs to another user. -/
def get_user_wallet_by_pubkey (rows : List WalletRow) (pubkey : Nat)
    (telegram_user_id : Int) : Except String (Option WalletRow) :=
  let user_id_str := "tg:" ++ toString telegram_user_id
  let wallet := rows.find? (fun w => w.pubkey == pubkey && w.user_id == user_id_str)
  match wallet with
  | none => .error "User does not have a wallet the provided pubkey"
  | some w => .ok (some w)

/-- The `AppError` of handlers/mod.rs: an HTTP status code and a message. -/
structure AppError where
  status : Nat
  message : String
deriving DecidableEq

/-- `AppError::internal_server_error` (handlers/mod.rs lines 53-55). -/
def internal_server_error (message : String) : AppError := ⟨500, message⟩

/-- `AppError::not_found` (handlers/mod.rs lines 61-63). -/
def not_found (message : String) : AppError := ⟨404, message⟩

/-- `impl From<anyhow::Error> for AppError` (handlers/mod.rs lines 78-82):
every bare anyhow error propagated with `?` becomes a 500. -/
def app_error_from_anyhow (message : String) : AppError :=
  internal_server_error message

/-- Outcomes of the RPC interactions of the balance handler after the
ownership lookup: whether the ATA account exists, the confidential balance
read (pending, available), and the public token balance read. -/
structure BalanceEnv where
  maybe_ata_account : Option Unit
  confidential_balances : Except String (Nat × Nat)
  public_balance : Except String Nat
deriving DecidableEq

/-- Embedding of the wallet balance handler (handlers/wallets/balance.rs
lines 64-120): look up the wallet by pubkey restricted to the caller
(`let Some(wallet) = ... else` maps an `Ok(None)` to a 404), then read the
ATA, the confidential balances and the public balance; bare `?` failures
convert through `From<anyhow::Error>` into 500 responses. Returns
(public, pending, available) on success. -/
def balance_handler (rows : List WalletRow) (env : BalanceEnv)
    (address : Nat) (telegram_user_id : Int) :
    Except AppError (Nat × Nat × Nat) :=
  match get_user_wallet_by_pubkey rows address telegram_user_id with
  | .error e => .error (app_error_from_anyhow e)
  | .ok none => .error (not_found "Wallet not found or not authorized")
  | .ok (some _wallet) =>
    match env.maybe_ata_account with
    | none => .error (not_found "Token account not found")
    | some _ =>
      match env.confidential_balances with
      | .error e => .error (app_error_from_anyhow e)
      | .ok (pending_balance, available_balance) =>
        match env.public_balance with
        | .error e => .error (internal_server_error e)
        | .ok public_balance =>
          .ok (public_balance, pending_balance, available_balance)

/-- C10 (code bug): for a wallet pubkey that exists but belongs to a
different user, the balance handler responds 500, not 404. The database row
for pubkey 7 belongs to user `tg:2`; the authenticated caller is `tg:1`.
`get_user_wallet_by_pubkey` returns an anyhow `Err` for the empty lookup
(contradicting its own doc comment, which promises `None`), so the handler's
`?` converts it into an internal-server 500 and the 404 branch is dead code.
The same 500 results when the pubkey does not exist at all. -/
theorem c10_not_owned_wallet_returns_500 :
    balance_handler [WalletRow.mk 7 "tg:2"]
        (BalanceEnv.mk (some ()) (.ok (0, 0)) (.ok 0)) 7 1
      = .error (AppError.mk 500 "User does not have a wallet the provided pubkey")
    ∧ balance_handler [WalletRow.mk 7 "tg:2"]
        (BalanceEnv.mk (some ()) (.ok (0, 0)) (.ok 0)) 9 1
      = .error (AppError.mk 500 "User does not have a wallet the provided pubkey")
    ∧ (500 : Nat) ≠ 404 := by
  refine ⟨?_, ?_, by decide⟩ <;> rfl
